import Mathlib

/-!
Verification of the consul discoverer's reconciliation core
(service-model building, projection to kube resources, state diffing,
and the per-cycle metric/action emission), shallowly embedded from the
Go sources in `pkg/consul`.
-/

set_option linter.unusedVariables false

namespace Gimbal

/-- `v1.ObjectMeta` restricted to the fields the discoverer reads/writes. -/
structure ObjectMeta where
  Name : String
  Namespace : String
  Labels : List (String × String)
deriving DecidableEq, Repr

/-- `v1.ServicePort` restricted to the fields set by `kubeServices`. -/
structure ServicePort where
  Name : String
  Port : Int
  TargetPort : Int
  Protocol : String
deriving DecidableEq, Repr

/-- `v1.ServiceSpec` restricted to the fields set by `kubeServices`. -/
structure ServiceSpec where
  Type' : String
  ClusterIP : String
  Ports : List ServicePort
deriving DecidableEq, Repr

/-- `v1.Service`. -/
structure V1Service where
  ObjectMeta : ObjectMeta
  Spec : ServiceSpec
deriving DecidableEq, Repr

/-- `v1.EndpointAddress` (only the IP field is set by the projector). -/
structure EndpointAddress where
  IP : String
deriving DecidableEq, Repr

/-- `v1.EndpointPort`. -/
structure EndpointPort where
  Name : String
  Port : Int
  Protocol : String
deriving DecidableEq, Repr

/-- `v1.EndpointSubset`. -/
structure EndpointSubset where
  Addresses : List EndpointAddress
  Ports : List EndpointPort
deriving DecidableEq, Repr

/-- `v1.Endpoints`. -/
structure V1Endpoints where
  ObjectMeta : ObjectMeta
  Subsets : List EndpointSubset
deriving DecidableEq, Repr

/-- `consul.Endpoints`: a `v1.Endpoints` plus the upstream name. -/
structure Endpoints where
  endpoints : V1Endpoints
  upstreamName : String
deriving DecidableEq, Repr

/-- `consul.Service`: the intermediate service model. -/
structure Service where
  Name : String
  Port : Int
  Nodes : List String
deriving DecidableEq, Repr

/-- `serviceEquals` from `diff.go`: identity comparison by name and namespace. -/
def serviceEquals (o1 o2 : V1Service) : Bool :=
  o1.ObjectMeta.Name == o2.ObjectMeta.Name &&
    o1.ObjectMeta.Namespace == o2.ObjectMeta.Namespace

/-- `serviceEqualsDetail` from `diff.go`: identity plus deep equality of `Spec.Ports`. -/
def serviceEqualsDetail (o1 o2 : V1Service) : Bool :=
  o1.ObjectMeta.Name == o2.ObjectMeta.Name &&
    o1.ObjectMeta.Namespace == o2.ObjectMeta.Namespace &&
    o1.Spec.Ports == o2.Spec.Ports

/-- `endpointEquals` from `diff.go`. -/
def endpointEquals (o1 o2 : Endpoints) : Bool :=
  o1.endpoints.ObjectMeta.Name == o2.endpoints.ObjectMeta.Name &&
    o1.endpoints.ObjectMeta.Namespace == o2.endpoints.ObjectMeta.Namespace

/-- `endpointEqualsDetail` from `diff.go`: identity plus deep equality of `Subsets`. -/
def endpointEqualsDetail (o1 o2 : Endpoints) : Bool :=
  o1.endpoints.ObjectMeta.Name == o2.endpoints.ObjectMeta.Name &&
    o1.endpoints.ObjectMeta.Namespace == o2.endpoints.ObjectMeta.Namespace &&
    o1.endpoints.Subsets == o2.endpoints.Subsets

/-- `containsSvc` from `diff.go`. -/
def containsSvc (x : V1Service) (xs : List V1Service) : Bool :=
  xs.any (fun s => serviceEquals x s)

/-- `containsEndpoint` from `diff.go`. -/
def containsEndpoint (x : Endpoints) (xs : List Endpoints) : Bool :=
  xs.any (fun e => endpointEquals x e)

/-- The shared shape of `diffServices` and `diffEndpoints` from `diff.go`:
`del` keeps the current entries with no identity match in `desired`,
`add` keeps the desired entries with no identity match in `current`, and
`update` visits each current entry, takes the first desired entry with the
same identity (the inner loop breaks on the first `eq` hit), and emits that
desired entry when the detail comparison fails. Returned in the Go order
`(add, update, del)`. -/
def diffGeneric {α : Type} (eq detailEq : α → α → Bool)
    (desired current : List α) : List α × List α × List α :=
  let del := current.filter (fun c => !(desired.any (fun d => eq c d)))
  let add := desired.filter (fun d => !(current.any (fun c => eq d c)))
  let update := current.filterMap (fun c =>
    match desired.find? (fun d => eq c d) with
    | some d => if !detailEq c d then some d else none
    | none => none)
  (add, update, del)

/-- `diffServices` from `diff.go`. -/
def diffServices (desired current : List V1Service) :
    List V1Service × List V1Service × List V1Service :=
  diffGeneric serviceEquals serviceEqualsDetail desired current

/-- `diffEndpoints` from `diff.go`. -/
def diffEndpoints (desired current : List Endpoints) :
    List Endpoints × List Endpoints × List Endpoints :=
  diffGeneric endpointEquals endpointEqualsDetail desired current

/-- Identity of a `v1.Service`: the (name, namespace) pair compared by `serviceEquals`. -/
def svcIdentity (s : V1Service) : String × String :=
  (s.ObjectMeta.Name, s.ObjectMeta.Namespace)

/-- Identity of a `consul.Endpoints`: the (name, namespace) pair compared by `endpointEquals`. -/
def epIdentity (e : Endpoints) : String × String :=
  (e.endpoints.ObjectMeta.Name, e.endpoints.ObjectMeta.Namespace)

/-- Modelled from the spec: `translator.BuildDiscoveredName` is not among the
provided sources. Per the spec it is a pure deterministic derivation of the
target resource name from the backend identifier and the (already lower-cased)
service name; the exact format is irrelevant to the claims below. -/
def BuildDiscoveredName (backendName serviceName : String) : String :=
  backendName ++ "-" ++ serviceName

/-- Modelled from the spec: `translator.GimbalLabelBackend` is not among the
provided sources; it is the label key marking the owning backend. -/
def GimbalLabelBackend : String := "gimbal.projectcontour.io/backend"

/-- Modelled from the spec: `translator.AddGimbalLabels` is not among the
provided sources. Per the spec it returns a label set containing at minimum
the backend-identity marker, merged with the supplied labels. -/
def AddGimbalLabels (backendName serviceName : String)
    (existing : List (String × String)) : List (String × String) :=
  (GimbalLabelBackend, backendName) :: existing

/-- `serviceName` from the projector file: lower-cased model name. -/
def serviceName (service : Service) : String :=
  service.Name.toLower

/-- `serviceNameOriginal` from the projector file. -/
def serviceNameOriginal (service : Service) : String :=
  service.Name.toLower

/-- `portName` from the projector file. -/
def portName (port : Int) : String :=
  "port-" ++ toString port

/-- `consulLabels` from the projector file: the sanitization logic is
commented out in the source and an empty map is returned. -/
def consulLabels (service : Service) : List (String × String) :=
  []

/-- `kubeServices` from the projector file: one `v1.Service` per model. -/
def kubeServices (backendName tenantName : String) (services : List Service) :
    List V1Service :=
  services.map (fun service =>
    { ObjectMeta :=
        { Name := BuildDiscoveredName backendName (serviceName service)
          Namespace := tenantName
          Labels := AddGimbalLabels backendName (serviceName service) (consulLabels service) }
      Spec :=
        { Type' := "ClusterIP"
          ClusterIP := "None"
          Ports := [{ Name := portName service.Port
                      Port := service.Port
                      TargetPort := service.Port
                      Protocol := "TCP" }] } })

/-- Go map read `subsets[k]`: the stored subset, or the zero value. -/
def subsetsGet (m : List (String × EndpointSubset)) (k : String) : EndpointSubset :=
  match m.find? (fun kv => kv.1 == k) with
  | some kv => kv.2
  | none => { Addresses := [], Ports := [] }

/-- Go map write `subsets[k] = v`: replace the binding or append a new one. -/
def subsetsSet (m : List (String × EndpointSubset)) (k : String)
    (v : EndpointSubset) : List (String × EndpointSubset) :=
  match m with
  | [] => [(k, v)]
  | kv :: rest => if kv.1 == k then (k, v) :: rest else kv :: subsetsSet rest k v

/-- The body of the per-node loop in `kubeEndpoints`: fetch the subset keyed
by the service name, add the port descriptor if none is present yet, append
the node's address, and store the subset back. -/
def kubeEndpointsStep (service : Service) (subsets : List (String × EndpointSubset))
    (node : String) : List (String × EndpointSubset) :=
  let s := subsetsGet subsets service.Name
  let s := if s.Ports.length = 0 then
      { s with Ports := s.Ports ++ [{ Name := portName service.Port
                                      Port := service.Port
                                      Protocol := "TCP" }] }
    else s
  let s := { s with Addresses := s.Addresses ++ [{ IP := node }] }
  subsetsSet subsets service.Name s

/-- `kubeEndpoints` from the projector file: one `consul.Endpoints` per model,
with subsets accumulated in a map keyed by the service name. -/
def kubeEndpoints (backendName tenantName : String) (services : List Service) :
    List Endpoints :=
  services.map (fun service =>
    let subsets := service.Nodes.foldl (kubeEndpointsStep service) []
    { endpoints :=
        { ObjectMeta :=
            { Name := BuildDiscoveredName backendName (serviceName service)
              Namespace := tenantName
              Labels := AddGimbalLabels backendName (serviceName service) (consulLabels service) }
          Subsets := subsets.map Prod.snd }
      upstreamName := serviceNameOriginal service })

/-- `contains` from the reconciler file. -/
def contains (s : List String) (e : String) : Bool :=
  s.any (fun v => e == v)

/-- One entry of the consul health response, `entry.Service` restricted to
the fields the reconciler reads. -/
structure ServiceEntry where
  Address : String
  Port : Int
deriving DecidableEq, Repr

/-- The per-service body of the reconciler loop that builds one `Service`
model from the healthy-instance response: addresses are appended in response
order and the port is set from an entry only while it is still zero. -/
def buildService (name : String) (entries : List ServiceEntry) : Service :=
  let acc := entries.foldl
    (fun (acc : List String × Int) entry =>
      (acc.1 ++ [entry.Address], if acc.2 = 0 then entry.Port else acc.2))
    ([], 0)
  { Name := name, Port := acc.2, Nodes := acc.1 }

/-- The model-building phase of `reconcile`: walk the catalog response,
skip services whose tag set lacks the filter, skip services whose
healthy-instance query fails (logged, continue), and build a model for the
rest. The catalog is a Go map `name -> tags`; it is embedded as an
association list, and the health query as a function returning `none` on
error. -/
def buildServices (catalog : List (String × List String)) (tagFilter : String)
    (health : String → Option (List ServiceEntry)) : List Service :=
  catalog.filterMap (fun entry =>
    if !contains entry.2 tagFilter then none
    else
      match health entry.1 with
      | none => none
      | some entries => some (buildService entry.1 entries))

/-- The actions handed to the sync queue, in the order `reconcileSvcs` and
`reconcileEndpoints` enqueue them. -/
inductive Action where
  | AddService (s : V1Service)
  | UpdateService (s : V1Service)
  | DeleteService (s : V1Service)
  | AddEndpoints (e : V1Endpoints) (upstreamName : String)
  | UpdateEndpoints (e : V1Endpoints) (upstreamName : String)
  | DeleteEndpoints (e : V1Endpoints) (upstreamName : String)
deriving DecidableEq, Repr

/-- Result of a kube `List` call. Per the client-go generated clientset the
returned list value is freshly allocated and left empty when `err` is not
nil, which is why the reconciler can keep using `.Items` after an error. -/
structure ListResult (α : Type) where
  items : List α
  err : Option String
deriving Repr

/-- The observable outcome of one reconciliation cycle: the actions enqueued
(in order), the names passed to `GenericMetricError`, and the two service
count metrics. -/
structure CycleOutcome where
  actions : List Action
  errorMetrics : List String
  upstreamMetric : Int
  invalidMetric : Int
deriving Repr

/-- `reconcileSvcs` from the reconciler file: enqueue adds, then updates,
then deletes. -/
def reconcileSvcs (desiredSvcs currentSvcs : List V1Service) : List Action :=
  let d := diffServices desiredSvcs currentSvcs
  d.1.map Action.AddService ++ d.2.1.map Action.UpdateService ++
    d.2.2.map Action.DeleteService

/-- `reconcileEndpoints` from the reconciler file: enqueue adds, then
updates, then deletes. -/
def reconcileEndpoints (desired current : List Endpoints) : List Action :=
  let d := diffEndpoints desired current
  d.1.map (fun e => Action.AddEndpoints e.endpoints e.upstreamName) ++
    d.2.1.map (fun e => Action.UpdateEndpoints e.endpoints e.upstreamName) ++
    d.2.2.map (fun e => Action.DeleteEndpoints e.endpoints e.upstreamName)

/-- `reconcile` from the reconciler file, after a successful catalog query:
build the models, list the observed services and endpoints (on a list error
the error metric is bumped, the error is logged, and the empty result value
is still used), wrap the observed endpoints, diff and enqueue per kind, and
report `len(svcs)` and `len(svcs) - len(svcs)` as the upstream and invalid
service counts. -/
def reconcile (backendName ns tagFilter : String)
    (catalog : List (String × List String))
    (health : String → Option (List ServiceEntry))
    (currentServices : ListResult V1Service)
    (currentk8sEndpoints : ListResult V1Endpoints) : CycleOutcome :=
  let svcs := buildServices catalog tagFilter health
  let errs1 := match currentServices.err with
    | some _ => ["ListServicesInNamespace"]
    | none => []
  let errs2 := match currentk8sEndpoints.err with
    | some _ => ["ListEndpointsInNamespace"]
    | none => []
  let currentEndpoints := currentk8sEndpoints.items.map
    (fun v => { endpoints := v, upstreamName := "" : Endpoints })
  let desiredSvcs := kubeServices backendName ns svcs
  let svcActions := reconcileSvcs desiredSvcs currentServices.items
  let desiredEndpoints := kubeEndpoints backendName ns svcs
  let epActions := reconcileEndpoints desiredEndpoints currentEndpoints
  let totalUpstreamServices : Int := svcs.length
  let totalInvalidServices : Int := totalUpstreamServices - svcs.length
  { actions := svcActions ++ epActions
    errorMetrics := errs1 ++ errs2
    upstreamMetric := totalUpstreamServices
    invalidMetric := totalInvalidServices }

/-- The single port descriptor `kubeEndpoints` attaches to a service's subset. -/
def svcPortDescriptor (service : Service) : EndpointPort :=
  { Name := portName service.Port, Port := service.Port, Protocol := "TCP" }

/-! ### Concrete fixtures used by witnesses and counterexamples -/

/-- A port-80 service port. -/
def port80 : ServicePort :=
  { Name := "port-80", Port := 80, TargetPort := 80, Protocol := "TCP" }

/-- A port-81 service port. -/
def port81 : ServicePort :=
  { Name := "port-81", Port := 81, TargetPort := 81, Protocol := "TCP" }

/-- A `v1.Service` named `a` in namespace `n` exposing port 80. -/
def svcA80 : V1Service :=
  { ObjectMeta := { Name := "a", Namespace := "n", Labels := [] }
    Spec := { Type' := "ClusterIP", ClusterIP := "None", Ports := [port80] } }

/-- Same identity as `svcA80` but exposing port 81. -/
def svcA81 : V1Service :=
  { ObjectMeta := { Name := "a", Namespace := "n", Labels := [] }
    Spec := { Type' := "ClusterIP", ClusterIP := "None", Ports := [port81] } }

/-- An endpoints resource named `a` in namespace `n` with one address. -/
def epA1 : Endpoints :=
  { endpoints :=
      { ObjectMeta := { Name := "a", Namespace := "n", Labels := [] }
        Subsets := [{ Addresses := [{ IP := "10.0.0.1" }]
                      Ports := [{ Name := "port-80", Port := 80, Protocol := "TCP" }] }] }
    upstreamName := "a" }

/-- Same identity as `epA1` but with a different subset list. -/
def epA2 : Endpoints :=
  { endpoints :=
      { ObjectMeta := { Name := "a", Namespace := "n", Labels := [] }
        Subsets := [{ Addresses := [{ IP := "10.0.0.2" }]
                      Ports := [{ Name := "port-80", Port := 80, Protocol := "TCP" }] }] }
    upstreamName := "a" }

/-- A service model with one node. -/
def model1 : Service := { Name := "web", Port := 80, Nodes := ["10.0.0.1"] }

/-- A health responder returning one healthy instance for every service. -/
def health1 : String → Option (List ServiceEntry) :=
  fun _ => some [{ Address := "10.0.0.1", Port := 80 }]

/-- The projected pair for `model1`, as emitted by the projector. -/
def c8pair : V1Service × Endpoints :=
  ({ ObjectMeta :=
       { Name := BuildDiscoveredName "b" (serviceName model1)
         Namespace := "ns"
         Labels := AddGimbalLabels "b" (serviceName model1) (consulLabels model1) }
     Spec :=
       { Type' := "ClusterIP"
         ClusterIP := "None"
         Ports := [{ Name := portName model1.Port
                     Port := model1.Port
                     TargetPort := model1.Port
                     Protocol := "TCP" }] } },
   { endpoints :=
       { ObjectMeta :=
           { Name := BuildDiscoveredName "b" (serviceName model1)
             Namespace := "ns"
             Labels := AddGimbalLabels "b" (serviceName model1) (consulLabels model1) }
         Subsets := [{ Addresses := [{ IP := "10.0.0.1" }]
                       Ports := [svcPortDescriptor model1] }] }
     upstreamName := serviceNameOriginal model1 })

/-- The catalog used to exhibit the invalid-service metric bug: one service
carries the filter tag, the other does not. -/
def c5catalog : List (String × List String) :=
  [("web", ["gateway"]), ("db", ["internal"])]

/-! ### Generic facts about the diff shape -/

theorem find?_eq_some_of_mem {α : Type} {p : α → Bool} :
    ∀ {xs : List α} {a : α}, a ∈ xs → p a = true →
      (∀ b ∈ xs, p b = true → b = a) → xs.find? p = some a := by
  intro xs
  induction xs with
  | nil => intro a h; cases h
  | cons x rest ih =>
    intro a hmem hpa huniq
    by_cases hx : p x = true
    · have hxa : x = a := huniq x (List.mem_cons_self x rest) hx
      subst hxa
      simp [List.find?, hpa]
    · have hax : a ≠ x := by
        intro h; exact hx (h ▸ hpa)
      have hmem' : a ∈ rest := by
        rcases List.mem_cons.mp hmem with h | h
        · exact absurd h hax
        · exact h
      have hfind := ih hmem' hpa (fun b hb hpb => huniq b (List.mem_cons_of_mem x hb) hpb)
      simp [List.find?, hx, hfind]

theorem mem_diff_del_iff {α : Type} (eq detailEq : α → α → Bool)
    (desired current : List α) (c : α) :
    c ∈ (diffGeneric eq detailEq desired current).2.2 ↔
      c ∈ current ∧ ∀ d ∈ desired, eq c d = false := by
  simp only [diffGeneric, List.mem_filter, Bool.not_eq_true', List.any_eq_false,
    Bool.not_eq_true]

theorem mem_diff_add_iff {α : Type} (eq detailEq : α → α → Bool)
    (desired current : List α) (a : α) :
    a ∈ (diffGeneric eq detailEq desired current).1 ↔
      a ∈ desired ∧ ∀ c ∈ current, eq a c = false := by
  simp only [diffGeneric, List.mem_filter, Bool.not_eq_true', List.any_eq_false,
    Bool.not_eq_true]

theorem mem_diff_update_of_mem {α : Type} {eq detailEq : α → α → Bool}
    {desired current : List α} {u : α}
    (h : u ∈ (diffGeneric eq detailEq desired current).2.1) :
    u ∈ desired ∧ ∃ c ∈ current, eq c u = true ∧ detailEq c u = false := by
  simp only [diffGeneric, List.mem_filterMap] at h
  obtain ⟨c, hc, hmatch⟩ := h
  cases hfind : desired.find? (fun d => eq c d) with
  | none => rw [hfind] at hmatch; cases hmatch
  | some d =>
    rw [hfind] at hmatch
    by_cases hdet : detailEq c d = true
    · simp [hdet] at hmatch
    · have hdet' : detailEq c d = false := by simpa using hdet
      simp [hdet'] at hmatch
      subst hmatch
      exact ⟨List.mem_of_find?_eq_some hfind, c, hc, List.find?_some hfind, hdet'⟩

theorem mem_diff_update_iff {α : Type} (eq detailEq : α → α → Bool)
    (hsym : ∀ a b, eq a b = true ↔ eq b a = true)
    (hdsym : ∀ a b, detailEq a b = true ↔ detailEq b a = true)
    (htrans : ∀ a b c, eq a b = true → eq b c = true → eq a c = true)
    (desired current : List α)
    (hnd : desired.Pairwise (fun a b => eq a b = false))
    (u : α) :
    u ∈ (diffGeneric eq detailEq desired current).2.1 ↔
      u ∈ desired ∧ ∃ c ∈ current, eq u c = true ∧ detailEq u c = false := by
  constructor
  · intro h
    obtain ⟨hu, c, hc, hequ, hdet⟩ := mem_diff_update_of_mem h
    refine ⟨hu, c, hc, (hsym c u).mp hequ, ?_⟩
    rw [← Bool.not_eq_true] at hdet ⊢
    intro h'; exact hdet ((hdsym u c).mp h')
  · rintro ⟨hu, c, hc, hequ, hdet⟩
    have hsymmR : Symmetric (fun a b : α => eq a b = false) := by
      intro a b hab
      rw [← Bool.not_eq_true] at hab ⊢
      intro h'; exact hab ((hsym b a).mp h')
    have hfind : desired.find? (fun d => eq c d) = some u := by
      apply find?_eq_some_of_mem hu ((hsym u c).mp hequ)
      intro b hb hpb
      by_contra hne
      have hfalse : eq b u = false := hnd.forall hsymmR hb hu hne
      have : eq b u = true := htrans b c u ((hsym c b).mp hpb) ((hsym u c).mp hequ)
      rw [this] at hfalse; cases hfalse
    have hdetcu : detailEq c u = false := by
      rw [← Bool.not_eq_true] at hdet ⊢
      intro h'; exact hdet ((hdsym c u).mp h')
    simp only [diffGeneric, List.mem_filterMap]
    exact ⟨c, hc, by simp [hfind, hdetcu]⟩

theorem diff_update_subset_desired {α : Type} {eq detailEq : α → α → Bool}
    {desired current : List α} {u : α}
    (h : u ∈ (diffGeneric eq detailEq desired current).2.1) : u ∈ desired :=
  (mem_diff_update_of_mem h).1

theorem diffGeneric_self {α : Type} (eq detailEq : α → α → Bool)
    (hrefl : ∀ a, eq a a = true) (hdrefl : ∀ a, detailEq a a = true)
    (hsym : ∀ a b, eq a b = true ↔ eq b a = true)
    (xs : List α) (hnd : xs.Pairwise (fun a b => eq a b = false)) :
    diffGeneric eq detailEq xs xs = ([], [], []) := by
  have hsymmR : Symmetric (fun a b : α => eq a b = false) := by
    intro a b hab
    rw [← Bool.not_eq_true] at hab ⊢
    intro h'; exact hab ((hsym b a).mp h')
  have hdel : xs.filter (fun c => !(xs.any (fun d => eq c d))) = [] := by
    rw [List.filter_eq_nil_iff]
    intro c hc
    have hany : xs.any (fun d => eq c d) = true := List.any_eq_true.mpr ⟨c, hc, hrefl c⟩
    simp [hany]
  have hupd : xs.filterMap (fun c =>
      match xs.find? (fun d => eq c d) with
      | some d => if !detailEq c d then some d else none
      | none => none) = [] := by
    rw [List.filterMap_eq_nil_iff]
    intro c hc
    have hfind : xs.find? (fun d => eq c d) = some c := by
      apply find?_eq_some_of_mem hc (hrefl c)
      intro b hb hpb
      by_contra hne
      have hfalse : eq b c = false := hnd.forall hsymmR hb hc hne
      have : eq b c = true := (hsym c b).mp hpb
      rw [this] at hfalse; cases hfalse
    simp [hfind, hdrefl c]
  have hadd : xs.filter (fun d => !(xs.any (fun c => eq d c))) = [] := by
    rw [List.filter_eq_nil_iff]
    intro d hd
    have hany : xs.any (fun c => eq d c) = true := List.any_eq_true.mpr ⟨d, hd, hrefl d⟩
    simp [hany]
  simp only [diffGeneric, hdel, hupd, hadd]

/-! ### The concrete equality predicates versus identities -/

theorem serviceEquals_iff (a b : V1Service) :
    serviceEquals a b = true ↔ svcIdentity a = svcIdentity b := by
  simp [serviceEquals, svcIdentity, Prod.ext_iff]

theorem serviceEqualsDetail_iff (a b : V1Service) :
    serviceEqualsDetail a b = true ↔
      svcIdentity a = svcIdentity b ∧ a.Spec.Ports = b.Spec.Ports := by
  simp [serviceEqualsDetail, svcIdentity, Prod.ext_iff, and_assoc]

theorem endpointEquals_iff (a b : Endpoints) :
    endpointEquals a b = true ↔ epIdentity a = epIdentity b := by
  simp [endpointEquals, epIdentity, Prod.ext_iff]

theorem endpointEqualsDetail_iff (a b : Endpoints) :
    endpointEqualsDetail a b = true ↔
      epIdentity a = epIdentity b ∧ a.endpoints.Subsets = b.endpoints.Subsets := by
  simp [endpointEqualsDetail, epIdentity, Prod.ext_iff, and_assoc]

theorem serviceEquals_symm (a b : V1Service) :
    serviceEquals a b = true ↔ serviceEquals b a = true := by
  simp only [serviceEquals_iff]; exact eq_comm

theorem serviceEquals_trans (a b c : V1Service)
    (h1 : serviceEquals a b = true) (h2 : serviceEquals b c = true) :
    serviceEquals a c = true := by
  rw [serviceEquals_iff] at h1 h2 ⊢; exact h1.trans h2

theorem serviceEquals_refl (a : V1Service) : serviceEquals a a = true := by
  rw [serviceEquals_iff]

theorem serviceEqualsDetail_symm (a b : V1Service) :
    serviceEqualsDetail a b = true ↔ serviceEqualsDetail b a = true := by
  simp only [serviceEqualsDetail_iff]
  constructor <;> rintro ⟨h1, h2⟩ <;> exact ⟨h1.symm, h2.symm⟩

theorem serviceEqualsDetail_refl (a : V1Service) : serviceEqualsDetail a a = true := by
  rw [serviceEqualsDetail_iff]; exact ⟨rfl, rfl⟩

theorem endpointEquals_symm (a b : Endpoints) :
    endpointEquals a b = true ↔ endpointEquals b a = true := by
  simp only [endpointEquals_iff]; exact eq_comm

theorem endpointEquals_trans (a b c : Endpoints)
    (h1 : endpointEquals a b = true) (h2 : endpointEquals b c = true) :
    endpointEquals a c = true := by
  rw [endpointEquals_iff] at h1 h2 ⊢; exact h1.trans h2

theorem endpointEquals_refl (a : Endpoints) : endpointEquals a a = true := by
  rw [endpointEquals_iff]

theorem endpointEqualsDetail_symm (a b : Endpoints) :
    endpointEqualsDetail a b = true ↔ endpointEqualsDetail b a = true := by
  simp only [endpointEqualsDetail_iff]
  constructor <;> rintro ⟨h1, h2⟩ <;> exact ⟨h1.symm, h2.symm⟩

theorem endpointEqualsDetail_refl (a : Endpoints) : endpointEqualsDetail a a = true := by
  rw [endpointEqualsDetail_iff]; exact ⟨rfl, rfl⟩

/-! ### Characterizing the model builder -/

theorem buildService_foldl (entries : List ServiceEntry) :
    ∀ (ns : List String) (p : Int),
      entries.foldl
        (fun (acc : List String × Int) entry =>
          (acc.1 ++ [entry.Address], if acc.2 = 0 then entry.Port else acc.2))
        (ns, p) =
      (ns ++ entries.map (fun e => e.Address),
        if p = 0 then
          match entries.filter (fun e => decide (e.Port ≠ 0)) with
          | [] => 0
          | e :: _ => e.Port
        else p) := by
  induction entries with
  | nil =>
    intro ns p
    simp only [List.foldl_nil, List.map_nil, List.append_nil, List.filter_nil]
    by_cases hp : p = 0 <;> simp [hp]
  | cons e rest ih =>
    intro ns p
    by_cases hp : p = 0
    · subst hp
      by_cases he : e.Port = 0
      · simp [List.foldl_cons, ih, he]
      · simp [List.foldl_cons, ih, he]
    · simp [List.foldl_cons, ih, hp]

theorem buildService_characterization (name : String) (entries : List ServiceEntry) :
    buildService name entries =
      { Name := name
        Port := match entries.filter (fun e => decide (e.Port ≠ 0)) with
                | [] => 0
                | e :: _ => e.Port
        Nodes := entries.map (fun e => e.Address) } := by
  simp [buildService, buildService_foldl entries [] 0]

/-! ### Characterizing the endpoint subset accumulation -/

theorem kubeEndpointsStep_existing (service : Service) (addrs : List EndpointAddress)
    (node : String) :
    kubeEndpointsStep service
        [(service.Name, { Addresses := addrs, Ports := [svcPortDescriptor service] })] node =
      [(service.Name,
        { Addresses := addrs ++ [{ IP := node }], Ports := [svcPortDescriptor service] })] := by
  simp [kubeEndpointsStep, subsetsGet, subsetsSet, List.find?]

theorem kubeEndpointsStep_empty (service : Service) (node : String) :
    kubeEndpointsStep service [] node =
      [(service.Name,
        { Addresses := [{ IP := node }], Ports := [svcPortDescriptor service] })] := by
  simp [kubeEndpointsStep, subsetsGet, subsetsSet, List.find?, svcPortDescriptor]

theorem kubeEndpoints_foldl_existing (service : Service) :
    ∀ (nodes : List String) (addrs : List EndpointAddress),
      nodes.foldl (kubeEndpointsStep service)
          [(service.Name, { Addresses := addrs, Ports := [svcPortDescriptor service] })] =
        [(service.Name,
          { Addresses := addrs ++ nodes.map (fun n => { IP := n })
            Ports := [svcPortDescriptor service] })] := by
  intro nodes
  induction nodes with
  | nil => intro addrs; simp
  | cons n rest ih =>
    intro addrs
    rw [List.foldl_cons, kubeEndpointsStep_existing, ih]
    simp

theorem kubeEndpoints_subsets_nil (service : Service) (h : service.Nodes = []) :
    service.Nodes.foldl (kubeEndpointsStep service) [] = [] := by
  rw [h]
  rfl

theorem kubeEndpoints_subsets_cons (service : Service) (h : service.Nodes ≠ []) :
    service.Nodes.foldl (kubeEndpointsStep service) [] =
      [(service.Name,
        { Addresses := service.Nodes.map (fun n => { IP := n })
          Ports := [svcPortDescriptor service] })] := by
  cases hn : service.Nodes with
  | nil => exact absurd hn h
  | cons n rest =>
    rw [List.foldl_cons, kubeEndpointsStep_empty, kubeEndpoints_foldl_existing]
    simp

/-! ### Claims -/

/-- C10: every element of the update set returned by the diff is the desired
version of the resource: for both Services and Endpoints, entries placed in
the update set are taken from the desired list. -/
theorem C10_update_from_desired
    (desiredS currentS : List V1Service) (desiredE currentE : List Endpoints)
    (u : V1Service) (e : Endpoints)
    (hu : u ∈ (diffServices desiredS currentS).2.1)
    (he : e ∈ (diffEndpoints desiredE currentE).2.1) :
    u ∈ desiredS ∧ e ∈ desiredE :=
  ⟨diff_update_subset_desired hu, diff_update_subset_desired he⟩

/-- Witness for C10 at a one-element update set of each kind. -/
theorem C10_witness : svcA81 ∈ [svcA81] ∧ epA2 ∈ [epA2] :=
  C10_update_from_desired [svcA81] [svcA80] [epA2] [epA1] svcA81 epA2
    (by decide) (by decide)

/-- C7: the built service model's port is the port of the first instance in
response order reporting a non-zero port (0 when none does), and its nodes
are the instance addresses in exactly the response order, duplicates kept. -/
theorem C7_first_nonzero_port_and_ordered_nodes (name : String)
    (entries : List ServiceEntry) :
    (buildService name entries).Nodes = entries.map (fun e => e.Address) ∧
    (buildService name entries).Port =
      (match entries.filter (fun e => decide (e.Port ≠ 0)) with
       | [] => 0
       | e :: _ => e.Port) := by
  rw [buildService_characterization]
  exact ⟨rfl, rfl⟩

/-- C8: the projector emits one Service and one Endpoints per input model,
and each corresponding pair shares its identity (derived name, namespace). -/
theorem C8_paired_identity (backendName tenantName : String)
    (services : List Service) :
    (kubeServices backendName tenantName services).length = services.length ∧
    (kubeEndpoints backendName tenantName services).length = services.length ∧
    ∀ p ∈ (kubeServices backendName tenantName services).zip
        (kubeEndpoints backendName tenantName services),
      p.1.ObjectMeta.Name = p.2.endpoints.ObjectMeta.Name ∧
      p.1.ObjectMeta.Namespace = p.2.endpoints.ObjectMeta.Namespace := by
  refine ⟨by simp [kubeServices], by simp [kubeEndpoints], ?_⟩
  intro p hp
  rw [kubeServices, kubeEndpoints, List.zip_map'] at hp
  obtain ⟨s, hs, rfl⟩ := List.mem_map.mp hp
  exact ⟨rfl, rfl⟩

/-- Witness for C8 at the concrete projected pair of `model1`. -/
theorem C8_witness :
    c8pair.1.ObjectMeta.Name = c8pair.2.endpoints.ObjectMeta.Name ∧
    c8pair.1.ObjectMeta.Namespace = c8pair.2.endpoints.ObjectMeta.Namespace :=
  (C8_paired_identity "b" "ns" [model1]).2.2 c8pair (by
    have h : (kubeServices "b" "ns" [model1]).zip (kubeEndpoints "b" "ns" [model1]) =
        [c8pair] := rfl
    rw [h]
    exact List.mem_singleton.mpr rfl)

/-- C9: for every model in the projected list, the Endpoints resource has no
subset when the model has no node, and exactly one subset otherwise, holding
the full node address list and exactly one port descriptor carrying the
model's single representative port. -/
theorem C9_single_subset (b t : String) (s : Service) (ss : List Service)
    (hs : s ∈ ss) :
    ∃ ep ∈ kubeEndpoints b t ss,
      ep.upstreamName = serviceNameOriginal s ∧
      ep.endpoints.ObjectMeta.Name = BuildDiscoveredName b (serviceName s) ∧
      (s.Nodes = [] → ep.endpoints.Subsets = []) ∧
      (s.Nodes ≠ [] → ep.endpoints.Subsets =
        [{ Addresses := s.Nodes.map (fun n => { IP := n })
           Ports := [svcPortDescriptor s] }]) := by
  refine ⟨_, List.mem_map_of_mem _ hs, rfl, rfl, ?_, ?_⟩
  · intro hnil
    show ((s.Nodes.foldl (kubeEndpointsStep s) []).map Prod.snd) = []
    rw [kubeEndpoints_subsets_nil s hnil]
    rfl
  · intro hne
    show ((s.Nodes.foldl (kubeEndpointsStep s) []).map Prod.snd) = _
    rw [kubeEndpoints_subsets_cons s hne]
    rfl

/-- C3: a failed list of observed Services (or Endpoints) does not abort the
cycle: the matching error metric is recorded and the outcome — actions of
both kinds and the service-count metrics — is exactly the outcome of a cycle
whose list succeeded with no observed resources of that kind. A failed
client-go list call hands back an error together with a freshly allocated
empty list value, hence the `items := []` in the failing result. -/
theorem C3_list_failure_fail_open (b ns tagFilter : String)
    (catalog : List (String × List String))
    (health : String → Option (List ServiceEntry))
    (msg : String)
    (svcR : ListResult V1Service) (epR : ListResult V1Endpoints) :
    (reconcile b ns tagFilter catalog health { items := [], err := some msg } epR =
      { reconcile b ns tagFilter catalog health { items := [], err := none } epR with
        errorMetrics := "ListServicesInNamespace" ::
          (reconcile b ns tagFilter catalog health
            { items := [], err := none } epR).errorMetrics }) ∧
    (reconcile b ns tagFilter catalog health svcR { items := [], err := some msg } =
      { reconcile b ns tagFilter catalog health svcR { items := [], err := none } with
        errorMetrics :=
          (reconcile b ns tagFilter catalog health svcR
            { items := [], err := none }).errorMetrics ++ ["ListEndpointsInNamespace"] }) := by
  constructor
  · simp [reconcile]
  · simp [reconcile]

/-- C5: the reconciler reports `len(svcs) - len(svcs)` as the invalid-service
count, which is the constant 0; at the failing input one registry service is
filtered out, yet 0 is reported instead of 1. The theorem shows the reported
count is 0 for every input while the excluded count at the failing input
is 1. -/
theorem C5_invalid_metric_always_zero :
    (∀ (b ns tagFilter : String) (catalog : List (String × List String))
       (health : String → Option (List ServiceEntry))
       (svcR : ListResult V1Service) (epR : ListResult V1Endpoints),
       (reconcile b ns tagFilter catalog health svcR epR).invalidMetric = 0) ∧
    (reconcile "b" "ns" "gateway" c5catalog health1
        { items := [], err := none } { items := [], err := none }).invalidMetric = 0 ∧
    (c5catalog.length : Int) -
        (buildServices c5catalog "gateway" health1).length = 1 := by
  refine ⟨?_, ?_, ?_⟩
  · intro b ns tagFilter catalog health svcR epR
    simp [reconcile]
  · simp [reconcile]
  · decide

/-- An identity never lands in two of the three classified sets: helper for
C2, phrased for the generic diff shape over any identity abstraction. -/
theorem diffGeneric_partition {α β : Type} (eq detailEq : α → α → Bool)
    (ident : α → β)
    (hiff : ∀ a b, eq a b = true ↔ ident a = ident b)
    (desired current : List α) (i : β) :
    (i ∈ (diffGeneric eq detailEq desired current).1.map ident ∧
       i ∉ (diffGeneric eq detailEq desired current).2.1.map ident ∧
       i ∉ (diffGeneric eq detailEq desired current).2.2.map ident) ∨
    (i ∉ (diffGeneric eq detailEq desired current).1.map ident ∧
       i ∈ (diffGeneric eq detailEq desired current).2.1.map ident ∧
       i ∉ (diffGeneric eq detailEq desired current).2.2.map ident) ∨
    (i ∉ (diffGeneric eq detailEq desired current).1.map ident ∧
       i ∉ (diffGeneric eq detailEq desired current).2.1.map ident ∧
       i ∈ (diffGeneric eq detailEq desired current).2.2.map ident) ∨
    (i ∉ (diffGeneric eq detailEq desired current).1.map ident ∧
       i ∉ (diffGeneric eq detailEq desired current).2.1.map ident ∧
       i ∉ (diffGeneric eq detailEq desired current).2.2.map ident) := by
  have hAU : i ∈ (diffGeneric eq detailEq desired current).1.map ident →
      i ∉ (diffGeneric eq detailEq desired current).2.1.map ident := by
    rintro hA hU
    obtain ⟨a, haMem, haId⟩ := List.mem_map.mp hA
    obtain ⟨u, huMem, huId⟩ := List.mem_map.mp hU
    obtain ⟨haDes, haNone⟩ := (mem_diff_add_iff eq detailEq desired current a).mp haMem
    obtain ⟨huDes, c, hcMem, hcEq, _⟩ := mem_diff_update_of_mem huMem
    have hIdCU : ident c = ident u := (hiff c u).mp hcEq
    have : eq a c = true := (hiff a c).mpr (by rw [haId, ← huId, hIdCU])
    rw [haNone c hcMem] at this
    cases this
  have hAD : i ∈ (diffGeneric eq detailEq desired current).1.map ident →
      i ∉ (diffGeneric eq detailEq desired current).2.2.map ident := by
    rintro hA hD
    obtain ⟨a, haMem, haId⟩ := List.mem_map.mp hA
    obtain ⟨d, hdMem, hdId⟩ := List.mem_map.mp hD
    obtain ⟨haDes, haNone⟩ := (mem_diff_add_iff eq detailEq desired current a).mp haMem
    obtain ⟨hdCur, _⟩ := (mem_diff_del_iff eq detailEq desired current d).mp hdMem
    have : eq a d = true := (hiff a d).mpr (by rw [haId, hdId])
    rw [haNone d hdCur] at this
    cases this
  have hUD : i ∈ (diffGeneric eq detailEq desired current).2.1.map ident →
      i ∉ (diffGeneric eq detailEq desired current).2.2.map ident := by
    rintro hU hD
    obtain ⟨u, huMem, huId⟩ := List.mem_map.mp hU
    obtain ⟨d, hdMem, hdId⟩ := List.mem_map.mp hD
    obtain ⟨huDes, _⟩ := mem_diff_update_of_mem huMem
    obtain ⟨hdCur, hdNone⟩ := (mem_diff_del_iff eq detailEq desired current d).mp hdMem
    have : eq d u = true := (hiff d u).mpr (by rw [hdId, huId])
    rw [hdNone u huDes] at this
    cases this
  by_cases hA : i ∈ (diffGeneric eq detailEq desired current).1.map ident
  · exact Or.inl ⟨hA, hAU hA, hAD hA⟩
  · by_cases hU : i ∈ (diffGeneric eq detailEq desired current).2.1.map ident
    · exact Or.inr (Or.inl ⟨hA, hU, hUD hU⟩)
    · by_cases hD : i ∈ (diffGeneric eq detailEq desired current).2.2.map ident
      · exact Or.inr (Or.inr (Or.inl ⟨hA, hU, hD⟩))
      · exact Or.inr (Or.inr (Or.inr ⟨hA, hU, hD⟩))

/-- Witness for C9 at `model1`. -/
theorem C9_witness :
    ∃ ep ∈ kubeEndpoints "b" "ns" [model1],
      ep.upstreamName = serviceNameOriginal model1 ∧
      ep.endpoints.ObjectMeta.Name = BuildDiscoveredName "b" (serviceName model1) ∧
      (model1.Nodes = [] → ep.endpoints.Subsets = []) ∧
      (model1.Nodes ≠ [] → ep.endpoints.Subsets =
        [{ Addresses := model1.Nodes.map (fun n => { IP := n })
           Ports := [svcPortDescriptor model1] }]) :=
  C9_single_subset "b" "ns" model1 [model1] (by decide)

/-- C1 fails as stated when the desired list repeats an identity: with
desired `[svcA80, svcA81]` and observed `[svcA80]`, the identity of `svcA81`
occurs in both lists and its ports differ from the observed entry's, yet the
update loop compares the observed entry only against the first desired match
(`svcA80`, detail-equal) and emits nothing. -/
theorem C1_counterexample :
    ¬ (svcA81 ∈ (diffServices [svcA80, svcA81] [svcA80]).2.1 ↔
        svcA81 ∈ [svcA80, svcA81] ∧ ∃ c ∈ [svcA80],
          serviceEquals svcA81 c = true ∧ serviceEqualsDetail svcA81 c = false) := by
  decide

/-- C1 (amended): provided each identity occurs at most once in the desired
list, diff classifies exactly as the spec states for both kinds: delete =
observed entries whose identity is absent from desired, add = desired
entries whose identity is absent from observed, update = desired entries
whose identity occurs in the observed list with unequal kind-specific
detail; and given equal identity, detail equality is exactly equality of
the Spec.Ports list (Services) resp. the Subsets list (Endpoints), so
metadata outside ports/subsets never triggers an update. -/
theorem C1_classification
    (desiredS currentS : List V1Service) (desiredE currentE : List Endpoints)
    (hndS : desiredS.Pairwise (fun a b => serviceEquals a b = false))
    (hndE : desiredE.Pairwise (fun a b => endpointEquals a b = false)) :
    ((∀ c, c ∈ (diffServices desiredS currentS).2.2 ↔
        c ∈ currentS ∧ ∀ d ∈ desiredS, serviceEquals c d = false) ∧
     (∀ a, a ∈ (diffServices desiredS currentS).1 ↔
        a ∈ desiredS ∧ ∀ c ∈ currentS, serviceEquals a c = false) ∧
     (∀ u, u ∈ (diffServices desiredS currentS).2.1 ↔
        u ∈ desiredS ∧ ∃ c ∈ currentS,
          serviceEquals u c = true ∧ serviceEqualsDetail u c = false) ∧
     (∀ u c, serviceEquals u c = true →
        (serviceEqualsDetail u c = true ↔ u.Spec.Ports = c.Spec.Ports))) ∧
    ((∀ c, c ∈ (diffEndpoints desiredE currentE).2.2 ↔
        c ∈ currentE ∧ ∀ d ∈ desiredE, endpointEquals c d = false) ∧
     (∀ a, a ∈ (diffEndpoints desiredE currentE).1 ↔
        a ∈ desiredE ∧ ∀ c ∈ currentE, endpointEquals a c = false) ∧
     (∀ u, u ∈ (diffEndpoints desiredE currentE).2.1 ↔
        u ∈ desiredE ∧ ∃ c ∈ currentE,
          endpointEquals u c = true ∧ endpointEqualsDetail u c = false) ∧
     (∀ u c, endpointEquals u c = true →
        (endpointEqualsDetail u c = true ↔
          u.endpoints.Subsets = c.endpoints.Subsets))) := by
  refine ⟨⟨?_, ?_, ?_, ?_⟩, ?_, ?_, ?_, ?_⟩
  · exact mem_diff_del_iff serviceEquals serviceEqualsDetail desiredS currentS
  · exact mem_diff_add_iff serviceEquals serviceEqualsDetail desiredS currentS
  · exact mem_diff_update_iff serviceEquals serviceEqualsDetail serviceEquals_symm
      serviceEqualsDetail_symm serviceEquals_trans desiredS currentS hndS
  · intro u c h
    rw [serviceEqualsDetail_iff]
    exact ⟨fun hp => hp.2, fun hp => ⟨(serviceEquals_iff u c).mp h, hp⟩⟩
  · exact mem_diff_del_iff endpointEquals endpointEqualsDetail desiredE currentE
  · exact mem_diff_add_iff endpointEquals endpointEqualsDetail desiredE currentE
  · exact mem_diff_update_iff endpointEquals endpointEqualsDetail endpointEquals_symm
      endpointEqualsDetail_symm endpointEquals_trans desiredE currentE hndE
  · intro u c h
    rw [endpointEqualsDetail_iff]
    exact ⟨fun hp => hp.2, fun hp => ⟨(endpointEquals_iff u c).mp h, hp⟩⟩

/-- Witness for C1 at one-element lists: the update characterization at
`svcA81`. -/
theorem C1_witness :
    svcA81 ∈ (diffServices [svcA81] [svcA80]).2.1 ↔
      svcA81 ∈ [svcA81] ∧ ∃ c ∈ [svcA80],
        serviceEquals svcA81 c = true ∧ serviceEqualsDetail svcA81 c = false :=
  ((C1_classification [svcA81] [svcA80] [epA2] [epA1]
      (by decide) (by decide)).1.2.2.1) svcA81

/-- C2: with each identity occurring at most once per list, every identity
from desired or observed lands in exactly one of add, update, delete, or
none of the three (unchanged/omitted) — never in two — for both kinds. -/
theorem C2_partition
    (desiredS currentS : List V1Service) (desiredE currentE : List Endpoints)
    (hndS1 : (desiredS.map svcIdentity).Nodup)
    (hndS2 : (currentS.map svcIdentity).Nodup)
    (hndE1 : (desiredE.map epIdentity).Nodup)
    (hndE2 : (currentE.map epIdentity).Nodup) :
    (∀ i, i ∈ desiredS.map svcIdentity ∨ i ∈ currentS.map svcIdentity →
      (i ∈ (diffServices desiredS currentS).1.map svcIdentity ∧
         i ∉ (diffServices desiredS currentS).2.1.map svcIdentity ∧
         i ∉ (diffServices desiredS currentS).2.2.map svcIdentity) ∨
      (i ∉ (diffServices desiredS currentS).1.map svcIdentity ∧
         i ∈ (diffServices desiredS currentS).2.1.map svcIdentity ∧
         i ∉ (diffServices desiredS currentS).2.2.map svcIdentity) ∨
      (i ∉ (diffServices desiredS currentS).1.map svcIdentity ∧
         i ∉ (diffServices desiredS currentS).2.1.map svcIdentity ∧
         i ∈ (diffServices desiredS currentS).2.2.map svcIdentity) ∨
      (i ∉ (diffServices desiredS currentS).1.map svcIdentity ∧
         i ∉ (diffServices desiredS currentS).2.1.map svcIdentity ∧
         i ∉ (diffServices desiredS currentS).2.2.map svcIdentity)) ∧
    (∀ i, i ∈ desiredE.map epIdentity ∨ i ∈ currentE.map epIdentity →
      (i ∈ (diffEndpoints desiredE currentE).1.map epIdentity ∧
         i ∉ (diffEndpoints desiredE currentE).2.1.map epIdentity ∧
         i ∉ (diffEndpoints desiredE currentE).2.2.map epIdentity) ∨
      (i ∉ (diffEndpoints desiredE currentE).1.map epIdentity ∧
         i ∈ (diffEndpoints desiredE currentE).2.1.map epIdentity ∧
         i ∉ (diffEndpoints desiredE currentE).2.2.map epIdentity) ∨
      (i ∉ (diffEndpoints desiredE currentE).1.map epIdentity ∧
         i ∉ (diffEndpoints desiredE currentE).2.1.map epIdentity ∧
         i ∈ (diffEndpoints desiredE currentE).2.2.map epIdentity) ∨
      (i ∉ (diffEndpoints desiredE currentE).1.map epIdentity ∧
         i ∉ (diffEndpoints desiredE currentE).2.1.map epIdentity ∧
         i ∉ (diffEndpoints desiredE currentE).2.2.map epIdentity)) := by
  constructor
  · intro i hmem
    exact diffGeneric_partition serviceEquals serviceEqualsDetail svcIdentity
      serviceEquals_iff desiredS currentS i
  · intro i hmem
    exact diffGeneric_partition endpointEquals endpointEqualsDetail epIdentity
      endpointEquals_iff desiredE currentE i

/-- Witness for C2 at the identity `("a", "n")` over one-element lists. -/
theorem C2_witness :
    (("a", "n") ∈ (diffServices [svcA81] [svcA80]).1.map svcIdentity ∧
       ("a", "n") ∉ (diffServices [svcA81] [svcA80]).2.1.map svcIdentity ∧
       ("a", "n") ∉ (diffServices [svcA81] [svcA80]).2.2.map svcIdentity) ∨
    (("a", "n") ∉ (diffServices [svcA81] [svcA80]).1.map svcIdentity ∧
       ("a", "n") ∈ (diffServices [svcA81] [svcA80]).2.1.map svcIdentity ∧
       ("a", "n") ∉ (diffServices [svcA81] [svcA80]).2.2.map svcIdentity) ∨
    (("a", "n") ∉ (diffServices [svcA81] [svcA80]).1.map svcIdentity ∧
       ("a", "n") ∉ (diffServices [svcA81] [svcA80]).2.1.map svcIdentity ∧
       ("a", "n") ∈ (diffServices [svcA81] [svcA80]).2.2.map svcIdentity) ∨
    (("a", "n") ∉ (diffServices [svcA81] [svcA80]).1.map svcIdentity ∧
       ("a", "n") ∉ (diffServices [svcA81] [svcA80]).2.1.map svcIdentity ∧
       ("a", "n") ∉ (diffServices [svcA81] [svcA80]).2.2.map svcIdentity) :=
  (C2_partition [svcA81] [svcA80] [epA2] [epA1]
      (by decide) (by decide) (by decide) (by decide)).1 ("a", "n") (by decide)

/-- C4 fails as stated when a list repeats an identity with differing
detail: diffing `[svcA80, svcA81]` against itself yields a non-empty update
set, because the second entry's first identity match is the first entry. -/
theorem C4_counterexample :
    diffServices [svcA80, svcA81] [svcA80, svcA81] ≠ ([], [], []) := by
  decide

/-- C4 (amended): provided each identity occurs at most once in the list,
diff applied to `(x, x)` returns three empty sets, for both kinds — the
cycle is idempotent when the observed state equals the desired projection. -/
theorem C4_diff_self_empty (xs : List V1Service) (ys : List Endpoints)
    (hx : xs.Pairwise (fun a b => serviceEquals a b = false))
    (hy : ys.Pairwise (fun a b => endpointEquals a b = false)) :
    diffServices xs xs = ([], [], []) ∧ diffEndpoints ys ys = ([], [], []) :=
  ⟨diffGeneric_self serviceEquals serviceEqualsDetail serviceEquals_refl
      serviceEqualsDetail_refl serviceEquals_symm xs hx,
   diffGeneric_self endpointEquals endpointEqualsDetail endpointEquals_refl
      endpointEqualsDetail_refl endpointEquals_symm ys hy⟩

/-- Witness for C4 at one-element lists. -/
theorem C4_witness :
    diffServices [svcA80] [svcA80] = ([], [], []) ∧
    diffEndpoints [epA1] [epA1] = ([], [], []) :=
  C4_diff_self_empty [svcA80] [epA1] (by decide) (by decide)

/-- In a catalog with distinct keys (a Go map), two bindings of the same
name carry the same tags. -/
theorem tags_eq_of_nodup_keys :
    ∀ {ks : List (String × List String)}, (ks.map Prod.fst).Nodup →
      ∀ {n : String} {t1 t2 : List String},
        (n, t1) ∈ ks → (n, t2) ∈ ks → t1 = t2 := by
  intro ks
  induction ks with
  | nil => intro _ n t1 t2 h1; cases h1
  | cons kv rest ih =>
    intro h n t1 t2 h1 h2
    rw [List.map_cons, List.nodup_cons] at h
    rcases List.mem_cons.mp h1 with e1 | m1
    · rcases List.mem_cons.mp h2 with e2 | m2
      · exact congrArg Prod.snd (e1.trans e2.symm)
      · exfalso
        apply h.1
        rw [← e1]
        exact List.mem_map.mpr ⟨(n, t2), m2, rfl⟩
    · rcases List.mem_cons.mp h2 with e2 | m2
      · exfalso
        apply h.1
        rw [← e2]
        exact List.mem_map.mpr ⟨(n, t1), m1, rfl⟩
      · exact ih h.2 m1 m2

/-- C6 fails as stated when the healthy-instance query errors: the service
carries the filter tag yet is skipped and the built model list stays empty,
so "included iff the filter tag is present" does not hold. -/
theorem C6_counterexample :
    ¬ ((∃ s ∈ buildServices [("web", ["gateway"])] "gateway" (fun _ => none),
          s.Name = "web") ↔
        contains ["gateway"] "gateway" = true) := by
  decide

/-- C6 (amended): over a catalog with distinct names, a service is included
in the built model list iff the filter tag is in its tag set AND its
healthy-instance query succeeds; and a catalog entry lacking the filter tag
contributes nothing at all — the built models and the whole cycle outcome
are the same as if the entry were absent, so it appears in no projected or
classified list. -/
theorem C6_tag_filter_amended (tagFilter : String)
    (health : String → Option (List ServiceEntry))
    (catalog : List (String × List String))
    (hnodup : (catalog.map Prod.fst).Nodup) :
    (∀ name tags, (name, tags) ∈ catalog →
      ((∃ s ∈ buildServices catalog tagFilter health, s.Name = name) ↔
        (contains tags tagFilter = true ∧ health name ≠ none))) ∧
    (∀ pre name tags post, catalog = pre ++ (name, tags) :: post →
      contains tags tagFilter = false →
      buildServices catalog tagFilter health =
          buildServices (pre ++ post) tagFilter health ∧
      ∀ (b ns : String) (svcR : ListResult V1Service) (epR : ListResult V1Endpoints),
        reconcile b ns tagFilter catalog health svcR epR =
          reconcile b ns tagFilter (pre ++ post) health svcR epR) := by
  constructor
  · intro name tags hmem
    constructor
    · rintro ⟨s, hsMem, hsName⟩
      rw [buildServices, List.mem_filterMap] at hsMem
      obtain ⟨⟨n, t⟩, hnt, hf⟩ := hsMem
      by_cases hc : contains t tagFilter = true
      · simp only [hc, Bool.not_true, Bool.false_eq_true, if_false] at hf
        cases hh : health n with
        | none => rw [hh] at hf; cases hf
        | some entries =>
          rw [hh] at hf
          have hs : buildService n entries = s := by injection hf
          have hn : n = name := by rw [← hsName, ← hs]; rfl
          subst hn
          have ht : t = tags := tags_eq_of_nodup_keys hnodup hnt hmem
          subst ht
          exact ⟨hc, by simp [hh]⟩
      · have hcf : contains t tagFilter = false := by simpa using hc
        simp [hcf] at hf
    · rintro ⟨hc, hh⟩
      cases hhe : health name with
      | none => exact absurd hhe hh
      | some entries =>
        refine ⟨buildService name entries, ?_, rfl⟩
        rw [buildServices, List.mem_filterMap]
        exact ⟨(name, tags), hmem, by simp [hc, hhe]⟩
  · rintro pre name tags post hcat hno
    have hbuild : buildServices catalog tagFilter health =
        buildServices (pre ++ post) tagFilter health := by
      subst hcat
      rw [buildServices, buildServices, List.filterMap_append, List.filterMap_append,
        List.filterMap_cons]
      simp [hno]
    refine ⟨hbuild, ?_⟩
    intro b ns svcR epR
    simp only [reconcile, hbuild]

/-- Witness for C6: the untagged `db` entry contributes nothing to the built
model list. -/
theorem C6_witness :
    buildServices c5catalog "gateway" health1 =
      buildServices ([("web", ["gateway"])] ++ []) "gateway" health1 :=
  (((C6_tag_filter_amended "gateway" health1 c5catalog (by decide)).2)
    [("web", ["gateway"])] "db" ["internal"] [] (by decide) (by decide)).1

end Gimbal
